import Mathlib

/-!
Shallow embedding of the return-fraud-check service (`src/main.py`).

The service has two endpoints:

* `POST /check-return` (`check_return`): pulls tracking details from an
  external tracking service, picks the first scan as the drop-off location,
  geocodes shipping and drop-off addresses, computes a geodesic distance and
  a weight deviation, and combines both flags into a fraud verdict.
* `POST /check-order-fraud` (`check_order_fraud`): parses the submitted
  street with the regex `(\d+)[a-zA-Z]*\s+(.*)`, counts existing records in
  the `orders` table whose `zip` equals the submission's zip and whose
  `street` matches the SQLite pattern `LIKE '%<number>%<street>%'`, then
  unconditionally inserts the (lowercased) submission as a new record.

Strings are modelled as `List Char`.  External collaborators (the tracking
lookup, the geocoder and the geodesic distance computation) are parameters
of the embedded `check_return`.  Python floats are modelled as rationals.
The SQLite store is modelled as the list of rows of the `orders` table, in
insertion order.
-/

namespace ReturnFraud

/-- Case folding used by SQLite's `LIKE`: ASCII-only lowering.  This is
exactly `Char.toLower` (which only maps `A`-`Z` to `a`-`z`).  It also models
Python's `str.lower()` on the ASCII inputs relevant here. -/
def pyLower (c : Char) : Char := c.toLower

/-- Character comparison of SQLite `LIKE`: case-insensitive on ASCII. -/
def eqCI (a b : Char) : Bool := a.toLower == b.toLower

/-- SQLite `LIKE` matching (no `ESCAPE` clause): `%` matches any sequence of
zero or more characters, `_` matches exactly one character, and any other
pattern character matches one character up to ASCII case.  The whole string
must be consumed. -/
def likeMatch : List Char → List Char → Bool
  | [], s => s.isEmpty
  | p :: ps, s =>
    if p = '%' then s.tails.any (fun s2 => likeMatch ps s2)
    else
      match s with
      | [] => false
      | c :: s2 => ((p == '_') || eqCI p c) && likeMatch ps s2

/-- A row of the `orders` table (`id` autoincrement column omitted: it is
never read). -/
structure OrderRecord where
  order_id : List Char
  street : List Char
  zip : List Char
deriving DecidableEq

/-- Request body of `POST /check-order-fraud`. -/
structure OrderSubmission where
  order_id : List Char
  street : List Char
  zip : List Char
deriving DecidableEq

/-- Response body of `POST /check-order-fraud`. -/
structure OrderFraudEvaluation where
  is_fraud : Bool
  matched_entries : Nat
  normalized_street : List Char
deriving DecidableEq

/-- The street parse of `check_order_fraud`:
`match = re.match(r"(\d+)[a-zA-Z]*\s+(.*)", order.street)`, returning
`(match.group(1), match.group(2).lower())` on success and `none` when the
regex does not match.  Since the digit, ASCII-letter and whitespace classes
are pairwise disjoint, the backtracking regex is equivalent to maximal
munch: one-or-more digits, zero-or-more ASCII letters, one-or-more
whitespace, then `(.*)` captures greedily up to the first newline (`.`
does not match `'\n'`; `re.match` does not anchor at the end).  The
character classes are modelled by Lean's ASCII `Char.isDigit`,
`Char.isAlpha` and `Char.isWhitespace`, matching the regex on all ASCII
input (Python additionally accepts some non-ASCII digits/whitespace). -/
def normalizeStreet (s : List Char) : Option (List Char × List Char) :=
  let ds := s.takeWhile Char.isDigit
  let r1 := s.dropWhile Char.isDigit
  let r2 := r1.dropWhile Char.isAlpha
  let ws := r2.takeWhile Char.isWhitespace
  let r3 := r2.dropWhile Char.isWhitespace
  if ds.isEmpty || ws.isEmpty then none
  else some (ds, (r3.takeWhile (fun c => c ≠ '\n')).map pyLower)

/-- The pattern `f"%{number}%{street}%"` built by `check_order_fraud`. -/
def likePattern (number street : List Char) : List Char :=
  '%' :: (number ++ '%' :: (street ++ ['%']))

/-- The SQL `WHERE` clause `zip = ? AND street LIKE ?` of the duplicate
count, applied to one stored row. -/
def matchesRecord (zip number street : List Char) (r : OrderRecord) : Bool :=
  (r.zip == zip) && likeMatch (likePattern number street) r.street

/-- `SELECT COUNT(*) FROM orders WHERE zip = ? AND street LIKE ?`. -/
def countMatches (store : List OrderRecord) (zip number street : List Char) : Nat :=
  (store.filter (matchesRecord zip number street)).length

/-- The row inserted by `check_order_fraud`:
`INSERT INTO orders (order_id, street, zip) VALUES (?, ?, ?)` with values
`(order.order_id, order.street.lower(), order.zip)`. -/
def insertedRecord (o : OrderSubmission) : OrderRecord :=
  ⟨o.order_id, o.street.map pyLower, o.zip⟩

/-- `POST /check-order-fraud`.  Returns the response (or the HTTP 400 error
detail) together with the state of the `orders` table after the call. -/
def check_order_fraud (store : List OrderRecord) (o : OrderSubmission) :
    Except (List Char) OrderFraudEvaluation × List OrderRecord :=
  match normalizeStreet o.street with
  | none => (Except.error ("Invalid street format").data, store)
  | some (number, street) =>
    let count := countMatches store o.zip number street
    (Except.ok ⟨decide (count ≥ 3), count, number ++ ' ' :: street⟩,
     store ++ [insertedRecord o])

/-! ## The return-check endpoint -/

/-- One scan event from the tracking collaborator; `none` models an absent
JSON field. -/
structure TrackingDetail where
  city : Option (List Char)
  zip : Option (List Char)

/-- The `tracker` object from the tracking collaborator: scan history and
parcel weight in ounces (a Python float, modelled as a rational). -/
structure Tracker where
  tracking_details : List TrackingDetail
  weight : Option ℚ

/-- Request body of `POST /check-return`. -/
structure ReturnRequest where
  order_id : List Char
  shipping_city : List Char
  shipping_zip : List Char
  correct_item_weight_lbs : ℚ

/-- Response body of `POST /check-return` (the constant `instruction` field
omitted). -/
structure ReturnEvaluation where
  is_fraud : Bool
  distance_miles : ℚ
  drop_off_city : List Char
  shipping_city : List Char
  return_weight_lbs : ℚ
  expected_weight_lbs : ℚ
  distance_flagged : Bool
  weight_flagged : Bool
deriving DecidableEq

/-- Python truthiness test `not x` for an optional string: true when the
field is absent or the string is empty. -/
def falsyStr : Option (List Char) → Bool
  | none => true
  | some s => s.isEmpty

/-- `round(x, 2)`: rounding to two decimal places. -/
def round2 (x : ℚ) : ℚ := (round (x * 100) : ℚ) / 100

/-- The distance test `distance > 15` of `check_return` (strict). -/
def distanceFlag (d : ℚ) : Bool := decide (d > 15)

/-- The weight-validation block of `check_return`, applied to the expected
weight in pounds and the returned weight already converted to pounds. -/
def weightFlag (expected returned : ℚ) : Bool :=
  if 1 < expected ∧ expected ≤ 3 then decide (returned < 1)
  else if 3 < expected ∧ expected ≤ 8 then decide (expected - returned > 1)
  else if 8 < expected then decide (expected - returned > 2)
  else false

/-- `POST /check-return`.  `statusOk` models the HTTP status test on the
tracking response, `tracker` the parsed `tracker` object (`none` when absent
or when `tracking_details` is missing), `geocode` the external geocoder
(`none` when its status is not `OK`) and `geodesicMiles` the external
geodesic distance computation in miles. -/
def check_return (statusOk : Bool) (tracker : Option Tracker)
    (geocode : List Char → List Char → Option (ℚ × ℚ))
    (geodesicMiles : ℚ × ℚ → ℚ × ℚ → ℚ)
    (data : ReturnRequest) : Except (List Char) ReturnEvaluation :=
  if statusOk = false then
    Except.error ("Error fetching tracking info from EasyPost").data
  else
    match tracker with
    | none => Except.error ("Tracking details not found").data
    | some tr =>
      match tr.tracking_details with
      | [] => Except.error ("Tracking details not found").data
      | first :: _ =>
        if falsyStr first.city || falsyStr first.zip then
          Except.error ("Incomplete drop-off location info").data
        else
          let drop_off_city := first.city.getD []
          let drop_off_zip := first.zip.getD []
          match geocode data.shipping_city data.shipping_zip with
          | none => Except.error ("Geocoding failed").data
          | some ship_coords =>
            match geocode drop_off_city drop_off_zip with
            | none => Except.error ("Geocoding failed").data
            | some drop_coords =>
              let distance := geodesicMiles ship_coords drop_coords
              let distance_fraud := distanceFlag distance
              match tr.weight with
              | none => Except.error ("Return package weight not found").data
              | some return_weight_oz =>
                let return_weight_lbs := return_weight_oz / 16
                let weight_fraud :=
                  weightFlag data.correct_item_weight_lbs return_weight_lbs
                Except.ok
                  { is_fraud := distance_fraud || weight_fraud
                    distance_miles := round2 distance
                    drop_off_city := drop_off_city
                    shipping_city := data.shipping_city
                    return_weight_lbs := round2 return_weight_lbs
                    expected_weight_lbs := data.correct_item_weight_lbs
                    distance_flagged := distance_fraud
                    weight_flagged := weight_fraud }

/-! ## Theory of SQLite `LIKE` matching -/

/-- A string is wildcard-free when it contains neither `%` nor `_`. -/
def noWild (l : List Char) : Prop := ∀ c ∈ l, c ≠ '%' ∧ c ≠ '_'

/-- Pointwise ASCII-case-insensitive equality of strings. -/
def ciEq : List Char → List Char → Bool
  | [], [] => true
  | [], _ :: _ => false
  | _ :: _, [] => false
  | p :: ps, c :: cs => eqCI p c && ciEq ps cs

theorem ciEq_refl (l : List Char) : ciEq l l = true := by
  induction l with
  | nil => rfl
  | cons a l ih => simp [ciEq, ih, eqCI]

theorem eqCI_eq {a c : Char} (ha : a.toLower = a) (hc : c.toLower = c) :
    eqCI a c = true ↔ a = c := by
  unfold eqCI
  rw [ha, hc, beq_iff_eq]

/-- Strings all of whose characters are fixed by ASCII lowering. -/
def lowerFixed (l : List Char) : Prop := ∀ c ∈ l, c.toLower = c

instance (l : List Char) : Decidable (noWild l) := by unfold noWild; infer_instance

instance (l : List Char) : Decidable (lowerFixed l) := by unfold lowerFixed; infer_instance

theorem ciEq_iff_eq (p : List Char) (t : List Char)
    (hp : lowerFixed p) (ht : lowerFixed t) : ciEq p t = true ↔ p = t := by
  induction p generalizing t with
  | nil => cases t <;> simp [ciEq]
  | cons a p ih =>
    cases t with
    | nil => simp [ciEq]
    | cons c t =>
      have h1 := eqCI_eq (hp a (by simp)) (ht c (by simp))
      have h2 := ih t (fun x hx => hp x (List.mem_cons_of_mem a hx))
        (fun x hx => ht x (List.mem_cons_of_mem c hx))
      simp [ciEq, h1, h2]

theorem likeMatch_pct (ps t : List Char) :
    likeMatch ('%' :: ps) t = true ↔
      ∃ a b, t = a ++ b ∧ likeMatch ps b = true := by
  show (if '%' = '%' then t.tails.any (fun s2 => likeMatch ps s2) else _) = true ↔ _
  rw [if_pos rfl, List.any_eq_true]
  constructor
  · rintro ⟨s2, hs2, hm⟩
    obtain ⟨a, rfl⟩ := (List.mem_tails s2 t).mp hs2
    exact ⟨a, s2, rfl, hm⟩
  · rintro ⟨a, b, rfl, hm⟩
    exact ⟨b, (List.mem_tails b (a ++ b)).mpr ⟨a, rfl⟩, hm⟩

theorem likeMatch_lit_nil {a : Char} (ps : List Char) (ha : a ≠ '%') :
    likeMatch (a :: ps) [] = false := by
  show (if a = '%' then _ else _) = false
  rw [if_neg ha]

theorem likeMatch_lit_cons {a : Char} (ps : List Char) (c : Char) (s : List Char)
    (ha : a ≠ '%') :
    likeMatch (a :: ps) (c :: s) = (((a == '_') || eqCI a c) && likeMatch ps s) := by
  show (if a = '%' then _ else _) = _
  rw [if_neg ha]

theorem likeMatch_lit (p : List Char) (hp : noWild p) (q t : List Char) :
    likeMatch (p ++ q) t = true ↔
      ∃ t1 t2, t = t1 ++ t2 ∧ ciEq p t1 = true ∧ likeMatch q t2 = true := by
  induction p generalizing t with
  | nil =>
    constructor
    · intro h; exact ⟨[], t, rfl, rfl, h⟩
    · rintro ⟨t1, t2, rfl, hci, hq⟩
      cases t1 with
      | nil => simpa using hq
      | cons x t1 =>
        rw [show ciEq [] (x :: t1) = false from rfl] at hci
        exact Bool.noConfusion hci
  | cons a p ih =>
    have ha := hp a (by simp)
    have hp2 : noWild p := fun c hc => hp c (by simp [hc])
    cases t with
    | nil =>
      rw [List.cons_append, likeMatch_lit_nil _ ha.1]
      simp only [Bool.false_eq_true, false_iff]
      rintro ⟨t1, t2, heq, hci, hq⟩
      cases t1 with
      | nil =>
        rw [show ciEq (a :: p) [] = false from rfl] at hci
        exact Bool.noConfusion hci
      | cons x t1 => simp at heq
    | cons c s =>
      rw [List.cons_append, likeMatch_lit_cons _ c s ha.1]
      have haU : (a == '_') = false := by simp [ha.2]
      rw [haU, Bool.false_or, Bool.and_eq_true, ih hp2 s]
      constructor
      · rintro ⟨hac, t1, t2, rfl, hci, hq⟩
        exact ⟨c :: t1, t2, by simp, by simp [ciEq, hac, hci], hq⟩
      · rintro ⟨t1, t2, heq, hci, hq⟩
        cases t1 with
        | nil =>
          rw [show ciEq (a :: p) [] = false from rfl] at hci
          exact Bool.noConfusion hci
        | cons x t1 =>
          simp only [List.cons_append, List.cons.injEq] at heq
          obtain ⟨rfl, rfl⟩ := heq
          simp only [ciEq, Bool.and_eq_true] at hci
          exact ⟨hci.1, t1, t2, rfl, hci.2, hq⟩

theorem likeMatch_pct_all (t : List Char) : likeMatch ['%'] t = true := by
  rw [likeMatch_pct]
  exact ⟨t, [], by simp, rfl⟩

/-- Characterization of the pattern `%number%street%` built by
`check_order_fraud`, for wildcard-free tokens: the string decomposes into an
occurrence of `number` followed (disjointly) by an occurrence of `street`,
both up to ASCII case. -/
theorem likeMatch_likePattern (n s : List Char) (hn : noWild n) (hs : noWild s)
    (t : List Char) :
    likeMatch (likePattern n s) t = true ↔
      ∃ a n2 b s2 c, t = a ++ n2 ++ b ++ s2 ++ c ∧
        ciEq n n2 = true ∧ ciEq s s2 = true := by
  unfold likePattern
  rw [likeMatch_pct]
  constructor
  · rintro ⟨a, b, rfl, hm⟩
    rw [likeMatch_lit n hn _ b] at hm
    obtain ⟨n2, r, rfl, hci, hm⟩ := hm
    rw [likeMatch_pct] at hm
    obtain ⟨b2, r2, rfl, hm⟩ := hm
    rw [likeMatch_lit s hs _ r2] at hm
    obtain ⟨s2, r3, rfl, hcs, _⟩ := hm
    exact ⟨a, n2, b2, s2, r3, by simp, hci, hcs⟩
  · rintro ⟨a, n2, b, s2, c, rfl, hci, hcs⟩
    refine ⟨a, n2 ++ (b ++ (s2 ++ c)), by simp, ?_⟩
    rw [likeMatch_lit n hn]
    refine ⟨n2, b ++ (s2 ++ c), rfl, hci, ?_⟩
    rw [likeMatch_pct]
    refine ⟨b, s2 ++ c, rfl, ?_⟩
    rw [likeMatch_lit s hs]
    exact ⟨s2, c, rfl, hcs, likeMatch_pct_all c⟩

/-- If a character occurs in `s` but not in `t`, then `t` has no
decomposition containing `s` (and `n`) as literal segments. -/
theorem no_split_of_not_mem (t n s : List Char) (x : Char)
    (hx : x ∈ s) (hxt : x ∉ t) :
    ¬ ∃ a b c, t = a ++ n ++ b ++ s ++ c := by
  rintro ⟨a, b, c, rfl⟩
  exact hxt (by simp [hx])

/-! ## Character classes and the street parse -/

theorem isAlpha_not_isDigit {c : Char} (h : c.isAlpha = true) : c.isDigit = false := by
  rw [Bool.eq_false_iff]
  intro hd
  simp only [Char.isAlpha, Char.isUpper, Char.isLower, Bool.or_eq_true, Bool.and_eq_true,
    decide_eq_true_iff] at h
  simp only [Char.isDigit, Bool.and_eq_true, decide_eq_true_iff] at hd
  have hd2 : c.val.toNat ≤ (57 : UInt32).toNat := hd.2
  rcases h with ⟨h1, _⟩ | ⟨h1, _⟩
  · have h12 : (65 : UInt32).toNat ≤ c.val.toNat := h1
    simp only [UInt32.toNat_ofNat, UInt32.size] at h12 hd2
    omega
  · have h12 : (97 : UInt32).toNat ≤ c.val.toNat := h1
    simp only [UInt32.toNat_ofNat, UInt32.size] at h12 hd2
    omega

theorem isWhitespace_not_isDigit {c : Char} (h : c.isWhitespace = true) :
    c.isDigit = false := by
  simp only [Char.isWhitespace, Bool.or_eq_true, decide_eq_true_iff] at h
  rcases h with ((h | h) | h) | h <;> subst h <;> decide

theorem isWhitespace_not_isAlpha {c : Char} (h : c.isWhitespace = true) :
    c.isAlpha = false := by
  simp only [Char.isWhitespace, Bool.or_eq_true, decide_eq_true_iff] at h
  rcases h with ((h | h) | h) | h <;> subst h <;> decide

theorem dropWhile_append_all {p : Char → Bool} (l r : List Char)
    (h : ∀ c ∈ l, p c = true) : (l ++ r).dropWhile p = r.dropWhile p := by
  induction l with
  | nil => rfl
  | cons a l ih =>
    rw [List.cons_append, List.dropWhile_cons_of_pos (h a (by simp))]
    exact ih (fun c hc => h c (by simp [hc]))

theorem ws_take_nonempty {w r : List Char} (hw : w ≠ [])
    (hww : ∀ c ∈ w, c.isWhitespace = true) :
    (((w ++ r).dropWhile Char.isAlpha).takeWhile Char.isWhitespace).isEmpty = false := by
  cases w with
  | nil => exact absurd rfl hw
  | cons w0 w2 =>
    have h0 := hww w0 (by simp)
    rw [List.cons_append,
      List.dropWhile_cons_of_neg (by simp [isWhitespace_not_isAlpha h0]),
      List.takeWhile_cons_of_pos h0]
    rfl

theorem dropWhile_digit_decomp {d ls w r : List Char}
    (hdd : ∀ c ∈ d, c.isDigit = true) (hls : ∀ c ∈ ls, c.isAlpha = true)
    (hw : w ≠ []) (hww : ∀ c ∈ w, c.isWhitespace = true) :
    (d ++ (ls ++ (w ++ r))).dropWhile Char.isDigit = ls ++ (w ++ r) := by
  rw [dropWhile_append_all d _ hdd]
  cases ls with
  | nil =>
    cases w with
    | nil => exact absurd rfl hw
    | cons w0 w2 =>
      simp only [List.nil_append, List.cons_append]
      rw [List.dropWhile_cons_of_neg
        (by simp [isWhitespace_not_isDigit (hww w0 (by simp))])]
  | cons l0 ls2 =>
    rw [List.cons_append,
      List.dropWhile_cons_of_neg (by simp [isAlpha_not_isDigit (hls l0 (by simp))])]

/-- The street regex accepts exactly the inputs starting with one-or-more
digits, zero-or-more ASCII letters and one-or-more whitespace characters
(the trailing `(.*)` accepts anything, including nothing). -/
theorem normalizeStreet_isSome_iff (str : List Char) :
    (normalizeStreet str).isSome = true ↔
      ∃ d ls w r, str = d ++ (ls ++ (w ++ r)) ∧
        d ≠ [] ∧ (∀ c ∈ d, c.isDigit = true) ∧
        (∀ c ∈ ls, c.isAlpha = true) ∧
        w ≠ [] ∧ (∀ c ∈ w, c.isWhitespace = true) := by
  constructor
  · intro h
    unfold normalizeStreet at h
    by_cases h1 : (str.takeWhile Char.isDigit).isEmpty
    · simp [h1] at h
    · by_cases h2 : (((str.dropWhile Char.isDigit).dropWhile Char.isAlpha).takeWhile
          Char.isWhitespace).isEmpty
      · simp [h1, h2] at h
      · refine ⟨str.takeWhile Char.isDigit,
          (str.dropWhile Char.isDigit).takeWhile Char.isAlpha,
          ((str.dropWhile Char.isDigit).dropWhile Char.isAlpha).takeWhile Char.isWhitespace,
          ((str.dropWhile Char.isDigit).dropWhile Char.isAlpha).dropWhile Char.isWhitespace,
          ?_, ?_, ?_, ?_, ?_, ?_⟩
        · rw [List.takeWhile_append_dropWhile, List.takeWhile_append_dropWhile,
            List.takeWhile_append_dropWhile]
        · simpa using h1
        · exact fun c hc => List.mem_takeWhile_imp hc
        · exact fun c hc => List.mem_takeWhile_imp hc
        · simpa using h2
        · exact fun c hc => List.mem_takeWhile_imp hc
  · rintro ⟨d, ls, w, r, rfl, hd, hdd, hls, hw, hww⟩
    have h1 : ((d ++ (ls ++ (w ++ r))).takeWhile Char.isDigit).isEmpty = false := by
      cases d with
      | nil => exact absurd rfl hd
      | cons d0 d2 =>
        rw [List.cons_append, List.takeWhile_cons_of_pos (hdd d0 (by simp))]
        rfl
    have h2 : ((((d ++ (ls ++ (w ++ r))).dropWhile Char.isDigit).dropWhile
        Char.isAlpha).takeWhile Char.isWhitespace).isEmpty = false := by
      rw [dropWhile_digit_decomp hdd hls hw hww, dropWhile_append_all ls _ hls]
      exact ws_take_nonempty hw hww
    unfold normalizeStreet
    simp [h1, h2]

/-- On success, the parse returns the leading digit run (non-empty) and the
lowercased remainder after the first whitespace run, truncated at the first
newline — possibly empty. -/
theorem normalizeStreet_some_inv {str number street : List Char}
    (h : normalizeStreet str = some (number, street)) :
    number = str.takeWhile Char.isDigit ∧ number ≠ [] ∧
    (∀ c ∈ number, c.isDigit = true) ∧
    street = ((((str.dropWhile Char.isDigit).dropWhile Char.isAlpha).dropWhile
      Char.isWhitespace).takeWhile (fun c => c ≠ '\n')).map pyLower := by
  unfold normalizeStreet at h
  by_cases h1 : (str.takeWhile Char.isDigit).isEmpty
  · simp [h1] at h
  · by_cases h2 : (((str.dropWhile Char.isDigit).dropWhile Char.isAlpha).takeWhile
        Char.isWhitespace).isEmpty
    · simp [h1, h2] at h
    · simp only [h1, h2, Bool.or_self, if_neg, Bool.false_eq_true, not_false_eq_true,
        Option.some.injEq, Prod.mk.injEq] at h
      obtain ⟨rfl, rfl⟩ := h
      refine ⟨rfl, by simpa using h1, fun c hc => List.mem_takeWhile_imp hc, rfl⟩

/-! ## Claim theorems: the order-fraud endpoint -/

/-- C1 (amended): for every stored order record and every order submission
whose normalized house number and street name contain no SQL `LIKE` wildcard
characters (`%`, `_`) — all strings lowercase, as the engine stores and
normalizes them — the record is counted in `matchedEntries` if and only if
its postal code equals the submission's postal code and its stored street
text contains the normalized house number and the normalized street name as
substrings, in that order, possibly with other characters between and
around them. -/
theorem c1_duplicate_matching_amended (r : OrderRecord) (zip number street : List Char)
    (hn : noWild number) (hs : noWild street)
    (hln : lowerFixed number) (hls : lowerFixed street)
    (hlr : lowerFixed r.street) :
    matchesRecord zip number street r = true ↔
      (r.zip = zip ∧ ∃ a b c, r.street = a ++ number ++ b ++ street ++ c) := by
  unfold matchesRecord
  rw [Bool.and_eq_true, beq_iff_eq, likeMatch_likePattern number street hn hs]
  constructor
  · rintro ⟨hz, a, n2, b, s2, c, heq, hci, hcs⟩
    have hn2 : lowerFixed n2 := by
      intro x hx; exact hlr x (by rw [heq]; simp [hx])
    have hs2 : lowerFixed s2 := by
      intro x hx; exact hlr x (by rw [heq]; simp [hx])
    rw [ciEq_iff_eq number n2 hln hn2] at hci
    rw [ciEq_iff_eq street s2 hls hs2] at hcs
    subst hci; subst hcs
    exact ⟨hz, a, b, c, heq⟩
  · rintro ⟨hz, a, b, c, heq⟩
    exact ⟨hz, a, number, b, street, c, heq, ciEq_refl number, ciEq_refl street⟩

/-- Witness for C1 (amended) at a concrete record and submission. -/
theorem c1_amended_witness :
    matchesRecord ("78701").data ("312").data ("arbor downs").data
        ⟨("o1").data, ("312 arbor downs").data, ("78701").data⟩ = true ↔
      ((⟨("o1").data, ("312 arbor downs").data, ("78701").data⟩ : OrderRecord).zip =
          ("78701").data ∧
       ∃ a b c, (⟨("o1").data, ("312 arbor downs").data, ("78701").data⟩ :
          OrderRecord).street = a ++ ("312").data ++ b ++ ("arbor downs").data ++ c) :=
  c1_duplicate_matching_amended
    ⟨("o1").data, ("312 arbor downs").data, ("78701").data⟩
    ("78701").data ("312").data ("arbor downs").data
    (by decide) (by decide) (by decide) (by decide) (by decide)

/-- C1 counterexample: the submission `"1 a%b"` (zip `"z"`) normalizes to
house number `"1"` and street name `"a%b"`; the stored record with street
`"1 axb"` and the same zip is counted (`matchedEntries = 1`) even though
`"a%b"` is not a literal substring of `"1 axb"` — the `%` acts as a
wildcard, so the claimed iff fails. -/
theorem c1_counterexample :
    (check_order_fraud
        [⟨("o1").data, ("1 axb").data, ("z").data⟩]
        ⟨("o2").data, ("1 a%b").data, ("z").data⟩).1 =
      Except.ok ⟨false, 1, ("1 a%b").data⟩ ∧
    normalizeStreet ("1 a%b").data = some (("1").data, ("a%b").data) ∧
    matchesRecord ("z").data ("1").data ("a%b").data
      ⟨("o1").data, ("1 axb").data, ("z").data⟩ = true ∧
    ¬ ∃ a b c, ("1 axb").data = a ++ ("1").data ++ b ++ ("a%b").data ++ c :=
  ⟨rfl, rfl, by decide, no_split_of_not_mem _ _ _ '%' (by decide) (by decide)⟩

/-- C10: the duplicate-match predicate interprets `%` as a multi-character
wildcard and `_` as a single-character wildcard.  The submission `"7 a%b"`
counts a stored record with street `"7 axb"` that does not contain `"a%b"`
literally; and a street-name `"a_b"` matches `"7 axb"` (one character
between `a` and `b`) but not `"7 axxb"` (two characters). -/
theorem c10_wildcard_semantics :
    (check_order_fraud
        [⟨("r1").data, ("7 axb").data, ("78701").data⟩]
        ⟨("r2").data, ("7 a%b").data, ("78701").data⟩).1 =
      Except.ok ⟨false, 1, ("7 a%b").data⟩ ∧
    ¬ (∃ a b c, ("7 axb").data = a ++ ("7").data ++ b ++ ("a%b").data ++ c) ∧
    likeMatch (likePattern ("7").data ("a_b").data) ("7 axb").data = true ∧
    likeMatch (likePattern ("7").data ("a_b").data) ("7 axxb").data = false :=
  ⟨rfl, no_split_of_not_mem _ _ _ '%' (by decide) (by decide), by decide, by decide⟩

/-- C2: every successful order check counts matches over the records present
before the call, appends exactly one new record unconditionally (so records
are never updated or deleted, and identical resubmissions are not
deduplicated), and flags fraud exactly when the count is at least 3. -/
theorem c2_check_then_insert (store : List OrderRecord) (o : OrderSubmission)
    (r : OrderFraudEvaluation) (post : List OrderRecord)
    (h : check_order_fraud store o = (Except.ok r, post)) :
    (∃ number street, normalizeStreet o.street = some (number, street) ∧
        r.matched_entries = countMatches store o.zip number street) ∧
    post = store ++ [insertedRecord o] ∧
    (r.is_fraud = true ↔ r.matched_entries ≥ 3) := by
  unfold check_order_fraud at h
  cases hns : normalizeStreet o.street with
  | none =>
    rw [hns] at h
    simp only [Prod.mk.injEq] at h
    exact absurd h.1 (by simp)
  | some p =>
    obtain ⟨number, street⟩ := p
    rw [hns] at h
    simp only [Prod.mk.injEq, Except.ok.injEq] at h
    obtain ⟨h1, h2⟩ := h
    subst h1; subst h2
    refine ⟨⟨number, street, rfl, rfl⟩, rfl, decide_eq_true_iff⟩

/-- Witness for C2 at a concrete submission against the empty store. -/
theorem c2_witness :
    (∃ number street,
        normalizeStreet ("312 arbor").data = some (number, street) ∧
        (OrderFraudEvaluation.mk false 0 (("312 arbor").data)).matched_entries =
          countMatches [] ("78701").data number street) ∧
    [] ++ [insertedRecord ⟨("w1").data, ("312 arbor").data, ("78701").data⟩] =
      [] ++ [insertedRecord ⟨("w1").data, ("312 arbor").data, ("78701").data⟩] ∧
    ((OrderFraudEvaluation.mk false 0 (("312 arbor").data)).is_fraud = true ↔
      (OrderFraudEvaluation.mk false 0 (("312 arbor").data)).matched_entries ≥ 3) :=
  c2_check_then_insert [] ⟨("w1").data, ("312 arbor").data, ("78701").data⟩
    ⟨false, 0, ("312 arbor").data⟩
    ([] ++ [insertedRecord ⟨("w1").data, ("312 arbor").data, ("78701").data⟩]) rfl

/-- C7: when an order check fails (the only failable validation is the
street parse, `InvalidAddressFormat`), the order store is unchanged — the
insert happens only after validation has succeeded. -/
theorem c7_error_atomicity (store : List OrderRecord) (o : OrderSubmission)
    (e : List Char) (post : List OrderRecord)
    (h : check_order_fraud store o = (Except.error e, post)) : post = store := by
  unfold check_order_fraud at h
  cases hns : normalizeStreet o.street with
  | none =>
    rw [hns] at h
    simp only [Prod.mk.injEq] at h
    exact h.2.symm
  | some p =>
    obtain ⟨number, street⟩ := p
    rw [hns] at h
    simp only [Prod.mk.injEq] at h
    exact absurd h.1 (by simp)

/-- Witness for C7: the submission `"Arbor Downs"` fails the street parse
and leaves a one-record store unchanged. -/
theorem c7_witness :
    [(⟨("o1").data, ("312 arbor").data, ("78701").data⟩ : OrderRecord)] =
      [⟨("o1").data, ("312 arbor").data, ("78701").data⟩] :=
  c7_error_atomicity [⟨("o1").data, ("312 arbor").data, ("78701").data⟩]
    ⟨("o9").data, ("Arbor Downs").data, ("78701").data⟩
    ("Invalid street format").data
    [⟨("o1").data, ("312 arbor").data, ("78701").data⟩] rfl

/-! ## Claim theorems: heuristics and normalization -/

/-- C3: the returned weight is the ounces divided by 16, and the weight flag
holds exactly on the three tiers of the claim; below one expected pound it
is never set. -/
theorem c3_weight_heuristic (expected oz : ℚ) :
    (weightFlag expected (oz / 16) = true ↔
      ((1 < expected ∧ expected ≤ 3 ∧ oz / 16 < 1) ∨
       (3 < expected ∧ expected ≤ 8 ∧ expected - oz / 16 > 1) ∨
       (8 < expected ∧ expected - oz / 16 > 2))) ∧
    (expected ≤ 1 → weightFlag expected (oz / 16) = false) := by
  constructor
  · unfold weightFlag
    split_ifs with h1 h2 h3
    · simp only [decide_eq_true_iff]
      constructor
      · intro h; exact Or.inl ⟨h1.1, h1.2, h⟩
      · rintro (⟨-, -, h⟩ | ⟨ha, -, -⟩ | ⟨ha, -⟩)
        · exact h
        · linarith [h1.2]
        · linarith [h1.2]
    · simp only [decide_eq_true_iff]
      constructor
      · intro h; exact Or.inr (Or.inl ⟨h2.1, h2.2, h⟩)
      · rintro (⟨ha, hb, -⟩ | ⟨-, -, h⟩ | ⟨ha, -⟩)
        · exact absurd ⟨ha, hb⟩ h1
        · exact h
        · linarith [h2.2]
    · simp only [decide_eq_true_iff]
      constructor
      · intro h; exact Or.inr (Or.inr ⟨h3, h⟩)
      · rintro (⟨ha, hb, -⟩ | ⟨ha, hb, -⟩ | ⟨-, h⟩)
        · exact absurd ⟨ha, hb⟩ h1
        · exact absurd ⟨ha, hb⟩ h2
        · exact h
    · simp only [Bool.false_eq_true, false_iff]
      rintro (h | h | h)
      · exact h1 ⟨h.1, h.2.1⟩
      · exact h2 ⟨h.1, h.2.1⟩
      · exact h3 h.1
  · intro hle
    unfold weightFlag
    split_ifs with h1 h2 h3
    · exact absurd (lt_of_lt_of_le h1.1 hle) (by norm_num)
    · exact absurd (lt_of_lt_of_le h2.1 hle) (by norm_num)
    · exact absurd (lt_of_lt_of_le h3 hle) (by norm_num)
    · rfl

/-- Witness for C3: half-pound expected item, quarter-pound return, never
flagged. -/
theorem c3_witness : weightFlag (1 / 2) ((4 : ℚ) / 16) = false :=
  (c3_weight_heuristic (1 / 2) 4).2 (by norm_num)

/-- C4: the distance flag holds exactly when the computed distance exceeds
15 miles, and exactly 15.0 miles is unflagged. -/
theorem c4_distance_threshold (d : ℚ) :
    (distanceFlag d = true ↔ d > 15) ∧ distanceFlag (15 : ℚ) = false :=
  ⟨decide_eq_true_iff, rfl⟩

/-- C5 (amended): the street parse succeeds exactly on inputs starting with
one-or-more digits, zero-or-more letters and one-or-more whitespace
characters (the text after the whitespace may be EMPTY); on success the
house number is the non-empty digit run and the street name is the
lowercased remainder up to the first newline, possibly empty.
`"312k Arbor Downs"` parses to `("312", "arbor downs")`; `"Arbor Downs"`
fails. -/
theorem c5_normalization_amended (str : List Char) :
    ((normalizeStreet str).isSome = true ↔
      ∃ d ls w r, str = d ++ (ls ++ (w ++ r)) ∧
        d ≠ [] ∧ (∀ c ∈ d, c.isDigit = true) ∧
        (∀ c ∈ ls, c.isAlpha = true) ∧
        w ≠ [] ∧ (∀ c ∈ w, c.isWhitespace = true)) ∧
    (∀ number street, normalizeStreet str = some (number, street) →
        number ≠ [] ∧ (∀ c ∈ number, c.isDigit = true) ∧
        street = ((((str.dropWhile Char.isDigit).dropWhile Char.isAlpha).dropWhile
          Char.isWhitespace).takeWhile (fun c => c ≠ '\n')).map pyLower) ∧
    normalizeStreet ("312k Arbor Downs").data =
      some (("312").data, ("arbor downs").data) ∧
    normalizeStreet ("Arbor Downs").data = none := by
  refine ⟨normalizeStreet_isSome_iff str, ?_, rfl, rfl⟩
  intro number street h
  obtain ⟨-, h2, h3, h4⟩ := normalizeStreet_some_inv h
  exact ⟨h2, h3, h4⟩

/-- Witness for C5 (amended) at the spec's own example input. -/
theorem c5_amended_witness :
    ("312").data ≠ [] ∧ (∀ c ∈ ("312").data, c.isDigit = true) ∧
    ("arbor downs").data =
      ((((("312k Arbor Downs").data.dropWhile Char.isDigit).dropWhile
        Char.isAlpha).dropWhile Char.isWhitespace).takeWhile
          (fun c => c ≠ '\n')).map pyLower :=
  (c5_normalization_amended (("312k Arbor Downs").data)).2.1
    ("312").data ("arbor downs").data rfl

/-- C5 counterexample: the input `"312 "` (digits, one space, nothing after)
is accepted by the code and yields an EMPTY street name, although the claim
requires one-or-more characters after the whitespace and a non-empty
streetName. -/
theorem c5_counterexample :
    normalizeStreet ("312 ").data = some (("312").data, ([] : List Char)) := rfl

/-! ## Claim theorems: the return-check endpoint -/

/-- Inversion of a successful `check_return`: the shape of every field of
the returned evaluation, in terms of the first tracking detail, the two
geocoded coordinates and the parcel weight. -/
theorem check_return_ok_inv (statusOk : Bool) (tr : Tracker)
    (geocode : List Char → List Char → Option (ℚ × ℚ))
    (geodesicMiles : ℚ × ℚ → ℚ × ℚ → ℚ)
    (data : ReturnRequest) (ev : ReturnEvaluation)
    (h : check_return statusOk (some tr) geocode geodesicMiles data = Except.ok ev) :
    ∃ first rest ship drop oz,
      tr.tracking_details = first :: rest ∧
      geocode data.shipping_city data.shipping_zip = some ship ∧
      geocode (first.city.getD []) (first.zip.getD []) = some drop ∧
      tr.weight = some oz ∧
      ev = { is_fraud := distanceFlag (geodesicMiles ship drop) ||
               weightFlag data.correct_item_weight_lbs (oz / 16)
             distance_miles := round2 (geodesicMiles ship drop)
             drop_off_city := first.city.getD []
             shipping_city := data.shipping_city
             return_weight_lbs := round2 (oz / 16)
             expected_weight_lbs := data.correct_item_weight_lbs
             distance_flagged := distanceFlag (geodesicMiles ship drop)
             weight_flagged := weightFlag data.correct_item_weight_lbs (oz / 16) } := by
  simp only [check_return] at h
  by_cases hso : statusOk = false
  · rw [if_pos hso] at h; exact Except.noConfusion h
  rw [if_neg hso] at h
  cases hdet : tr.tracking_details with
  | nil =>
    rw [hdet] at h; dsimp only at h; exact Except.noConfusion h
  | cons first rest =>
    rw [hdet] at h; dsimp only at h
    by_cases hcz : (falsyStr first.city || falsyStr first.zip) = true
    · rw [if_pos hcz] at h; exact Except.noConfusion h
    rw [if_neg hcz] at h
    cases hgs : geocode data.shipping_city data.shipping_zip with
    | none =>
      rw [hgs] at h; dsimp only at h; exact Except.noConfusion h
    | some ship =>
      rw [hgs] at h; dsimp only at h
      cases hgd : geocode (first.city.getD []) (first.zip.getD []) with
      | none =>
        rw [hgd] at h; dsimp only at h; exact Except.noConfusion h
      | some drop =>
        rw [hgd] at h; dsimp only at h
        cases hw : tr.weight with
        | none =>
          rw [hw] at h; dsimp only at h; exact Except.noConfusion h
        | some oz =>
          rw [hw] at h; dsimp only at h
          simp only [Except.ok.injEq] at h
          exact ⟨first, rest, ship, drop, oz, rfl, rfl, hgd, rfl, h.symm⟩

/-- C6: a successful return check sets `isFraud` to the disjunction of the
two flags; both flags are computed on the unrounded distance and weight,
while the reported `distanceMiles` and `returnWeightLbs` are the rounded
(2 decimal places) values. -/
theorem c6_return_combination (statusOk : Bool) (tracker : Option Tracker)
    (geocode : List Char → List Char → Option (ℚ × ℚ))
    (geodesicMiles : ℚ × ℚ → ℚ × ℚ → ℚ)
    (data : ReturnRequest) (ev : ReturnEvaluation)
    (h : check_return statusOk tracker geocode geodesicMiles data = Except.ok ev) :
    ev.is_fraud = (ev.distance_flagged || ev.weight_flagged) ∧
    ∃ tr first rest ship drop oz,
      tracker = some tr ∧ tr.tracking_details = first :: rest ∧
      geocode data.shipping_city data.shipping_zip = some ship ∧
      geocode (first.city.getD []) (first.zip.getD []) = some drop ∧
      tr.weight = some oz ∧
      ev.distance_flagged = distanceFlag (geodesicMiles ship drop) ∧
      ev.weight_flagged = weightFlag data.correct_item_weight_lbs (oz / 16) ∧
      ev.distance_miles = round2 (geodesicMiles ship drop) ∧
      ev.return_weight_lbs = round2 (oz / 16) := by
  cases tracker with
  | none =>
    by_cases hso : statusOk = false <;>
      simp only [check_return, hso, if_pos, if_neg, if_true, if_false] at h <;>
      exact absurd h (by simp)
  | some tr =>
    obtain ⟨first, rest, ship, drop, oz, hdet, hgs, hgd, hw, rfl⟩ :=
      check_return_ok_inv statusOk tr geocode geodesicMiles data ev h
    exact ⟨rfl, tr, first, rest, ship, drop, oz, rfl, hdet, hgs, hgd, hw,
      rfl, rfl, rfl, rfl⟩

/-- Witness for C6 at concrete collaborators: distance 20 miles and a
48-ounce return against a 5-pound expectation, both flags set. -/
theorem c6_witness :
    (true : Bool) = (true || true : Bool) ∧
    ∃ tr first rest ship drop oz,
      (some (⟨[⟨some ("austin").data, some ("78701").data⟩], some 48⟩ : Tracker)) =
        some tr ∧
      tr.tracking_details = first :: rest ∧
      (fun (_ _ : List Char) => some ((0 : ℚ), (0 : ℚ)))
        ("austin").data ("78701").data = some ship ∧
      (fun (_ _ : List Char) => some ((0 : ℚ), (0 : ℚ)))
        (first.city.getD []) (first.zip.getD []) = some drop ∧
      tr.weight = some oz ∧
      (true : Bool) = distanceFlag ((fun (_ _ : ℚ × ℚ) => (20 : ℚ)) ship drop) ∧
      (true : Bool) = weightFlag 5 (oz / 16) ∧
      (20 : ℚ) = round2 ((fun (_ _ : ℚ × ℚ) => (20 : ℚ)) ship drop) ∧
      (3 : ℚ) = round2 (oz / 16) := by
  have hcr : check_return true
      (some ⟨[⟨some ("austin").data, some ("78701").data⟩], some 48⟩)
      (fun _ _ => some (0, 0)) (fun _ _ => 20)
      ⟨("o").data, ("austin").data, ("78701").data, 5⟩ =
      Except.ok ⟨true, 20, ("austin").data, ("austin").data, 3, 5, true, true⟩ := by
    have h1 : check_return true
        (some ⟨[⟨some ("austin").data, some ("78701").data⟩], some 48⟩)
        (fun _ _ => some (0, 0)) (fun _ _ => 20)
        ⟨("o").data, ("austin").data, ("78701").data, 5⟩ =
        Except.ok ⟨distanceFlag 20 || weightFlag 5 (48 / 16), round2 20,
          ("austin").data, ("austin").data, round2 (48 / 16), 5,
          distanceFlag 20, weightFlag 5 (48 / 16)⟩ := rfl
    rw [h1]
    norm_num [distanceFlag, weightFlag, round2]
  exact c6_return_combination true
    (some ⟨[⟨some ("austin").data, some ("78701").data⟩], some 48⟩)
    (fun _ _ => some (0, 0)) (fun _ _ => 20)
    ⟨("o").data, ("austin").data, ("78701").data, 5⟩
    ⟨true, 20, ("austin").data, ("austin").data, 3, 5, true, true⟩ hcr

/-- C9: the drop-off location is always taken from the first element of the
tracking-details sequence: the result never depends on the later scans
(there is no selection policy), and on success the reported drop-off city
is the first scan's city. -/
theorem c9_first_scan (statusOk : Bool) (first : TrackingDetail)
    (rest rest2 : List TrackingDetail) (w : Option ℚ)
    (geocode : List Char → List Char → Option (ℚ × ℚ))
    (geodesicMiles : ℚ × ℚ → ℚ × ℚ → ℚ)
    (data : ReturnRequest) :
    check_return statusOk (some ⟨first :: rest, w⟩) geocode geodesicMiles data =
      check_return statusOk (some ⟨first :: rest2, w⟩) geocode geodesicMiles data ∧
    (∀ ev, check_return statusOk (some ⟨first :: rest, w⟩) geocode geodesicMiles data =
        Except.ok ev → ev.drop_off_city = first.city.getD []) := by
  constructor
  · rfl
  · intro ev h
    obtain ⟨f2, r2, ship, drop, oz, hdet, -, -, -, rfl⟩ :=
      check_return_ok_inv statusOk ⟨first :: rest, w⟩ geocode geodesicMiles data ev h
    simp only [List.cons.injEq] at hdet
    rw [hdet.1]

/-- Witness for C9 at a two-scan history: the reported drop-off city is the
first scan's. -/
theorem c9_witness :
    (⟨true, 20, ("austin").data, ("austin").data, 3, 5, true, true⟩ :
        ReturnEvaluation).drop_off_city =
      (⟨some ("austin").data, some ("78701").data⟩ : TrackingDetail).city.getD [] := by
  have hcr : check_return true
      (some ⟨[⟨some ("austin").data, some ("78701").data⟩, ⟨none, none⟩], some 48⟩)
      (fun _ _ => some (0, 0)) (fun _ _ => 20)
      ⟨("o").data, ("austin").data, ("78701").data, 5⟩ =
      Except.ok ⟨true, 20, ("austin").data, ("austin").data, 3, 5, true, true⟩ := by
    have h1 : check_return true
        (some ⟨[⟨some ("austin").data, some ("78701").data⟩, ⟨none, none⟩], some 48⟩)
        (fun _ _ => some (0, 0)) (fun _ _ => 20)
        ⟨("o").data, ("austin").data, ("78701").data, 5⟩ =
        Except.ok ⟨distanceFlag 20 || weightFlag 5 (48 / 16), round2 20,
          ("austin").data, ("austin").data, round2 (48 / 16), 5,
          distanceFlag 20, weightFlag 5 (48 / 16)⟩ := rfl
    rw [h1]
    norm_num [distanceFlag, weightFlag, round2]
  exact (c9_first_scan true ⟨some ("austin").data, some ("78701").data⟩
    [⟨none, none⟩] [] (some 48) (fun _ _ => some (0, 0)) (fun _ _ => 20)
    ⟨("o").data, ("austin").data, ("78701").data, 5⟩).2
    ⟨true, 20, ("austin").data, ("austin").data, 3, 5, true, true⟩ hcr

end ReturnFraud
